import Mathlib

/-
Verification of the DIMSE command-message codec of go-netdicom.

The schema registry (`MESSAGES`) and the shape of the generated `Encode`,
`decode<Kind>` and `decodeMessageForType` routines are translated from
`dimse/generate_dimse_messages.py`.  The element-pulling decoder primitives
and the Status codec are not part of that file; they are modelled from the
specification (sections 4.3 and 4.4) and marked as such.
-/

namespace Dimse

/-- Value types a schema field may carry (source: the `type` strings
`string`, `uint16`, `uint32` and `Status` of the `Field` NamedTuple). -/
inductive FType where
  | string
  | uint16
  | uint32
  | status
deriving DecidableEq

/-- One schema field: name, value type and required flag
(source: `Field` NamedTuple). -/
structure Field where
  name : String
  type : FType
  required : Bool
deriving DecidableEq

/-- Request/response direction (source: the `Type` enum). -/
inductive Direction where
  | request
  | response
deriving DecidableEq

/-- One message kind: name, direction, command-field code and ordered
field list (source: the `Message` NamedTuple). -/
structure Message where
  name : String
  direction : Direction
  command_field : Nat
  fields : List Field
deriving DecidableEq

/-- C-STORE request schema (source: `MESSAGES[0]`, P3.7 9.3.1.1). -/
def cStoreRq : Message :=
  ⟨ "C_STORE_RQ", Direction.request, 1,
    [⟨ "AffectedSOPClassUID", FType.string, true⟩,
     ⟨ "MessageID", FType.uint16, true⟩,
     ⟨ "Priority", FType.uint16, true⟩,
     ⟨ "CommandDataSetType", FType.uint16, true⟩,
     ⟨ "AffectedSOPInstanceUID", FType.string, true⟩,
     ⟨ "MoveOriginatorApplicationEntityTitle", FType.string, false⟩,
     ⟨ "MoveOriginatorMessageID", FType.uint16, false⟩]⟩

/-- C-STORE response schema (source: `MESSAGES[1]`, P3.7 9.3.1.2). -/
def cStoreRsp : Message :=
  ⟨ "C_STORE_RSP", Direction.response, 0x8001,
    [⟨ "AffectedSOPClassUID", FType.string, true⟩,
     ⟨ "MessageIDBeingRespondedTo", FType.uint16, true⟩,
     ⟨ "CommandDataSetType", FType.uint16, true⟩,
     ⟨ "AffectedSOPInstanceUID", FType.string, true⟩,
     ⟨ "Status", FType.status, true⟩]⟩

/-- C-FIND request schema (source: `MESSAGES[2]`, P3.7 9.1.2.1). -/
def cFindRq : Message :=
  ⟨ "C_FIND_RQ", Direction.request, 0x20,
    [⟨ "AffectedSOPClassUID", FType.string, true⟩,
     ⟨ "MessageID", FType.uint16, true⟩,
     ⟨ "Priority", FType.uint16, true⟩,
     ⟨ "CommandDataSetType", FType.uint16, true⟩]⟩

/-- C-FIND response schema (source: `MESSAGES[3]`). -/
def cFindRsp : Message :=
  ⟨ "C_FIND_RSP", Direction.response, 0x8020,
    [⟨ "AffectedSOPClassUID", FType.string, true⟩,
     ⟨ "MessageIDBeingRespondedTo", FType.uint16, true⟩,
     ⟨ "CommandDataSetType", FType.uint16, true⟩,
     ⟨ "Status", FType.status, true⟩]⟩

/-- C-GET request schema (source: `MESSAGES[4]`, P3.7 9.1.2.1). -/
def cGetRq : Message :=
  ⟨ "C_GET_RQ", Direction.request, 0x10,
    [⟨ "AffectedSOPClassUID", FType.string, true⟩,
     ⟨ "MessageID", FType.uint16, true⟩,
     ⟨ "Priority", FType.uint16, true⟩,
     ⟨ "CommandDataSetType", FType.uint16, true⟩]⟩

/-- C-GET response schema (source: `MESSAGES[5]`). -/
def cGetRsp : Message :=
  ⟨ "C_GET_RSP", Direction.response, 0x8010,
    [⟨ "AffectedSOPClassUID", FType.string, true⟩,
     ⟨ "MessageIDBeingRespondedTo", FType.uint16, true⟩,
     ⟨ "CommandDataSetType", FType.uint16, true⟩,
     ⟨ "NumberOfRemainingSuboperations", FType.uint16, false⟩,
     ⟨ "NumberOfCompletedSuboperations", FType.uint16, false⟩,
     ⟨ "NumberOfFailedSuboperations", FType.uint16, false⟩,
     ⟨ "NumberOfWarningSuboperations", FType.uint16, false⟩,
     ⟨ "Status", FType.status, true⟩]⟩

/-- C-MOVE request schema (source: `MESSAGES[6]`, P3.7 9.3.4.1). -/
def cMoveRq : Message :=
  ⟨ "C_MOVE_RQ", Direction.request, 0x21,
    [⟨ "AffectedSOPClassUID", FType.string, true⟩,
     ⟨ "MessageID", FType.uint16, true⟩,
     ⟨ "Priority", FType.uint16, true⟩,
     ⟨ "MoveDestination", FType.string, true⟩,
     ⟨ "CommandDataSetType", FType.uint16, true⟩]⟩

/-- C-MOVE response schema (source: `MESSAGES[7]`). -/
def cMoveRsp : Message :=
  ⟨ "C_MOVE_RSP", Direction.response, 0x8021,
    [⟨ "AffectedSOPClassUID", FType.string, true⟩,
     ⟨ "MessageIDBeingRespondedTo", FType.uint16, true⟩,
     ⟨ "CommandDataSetType", FType.uint16, true⟩,
     ⟨ "NumberOfRemainingSuboperations", FType.uint16, false⟩,
     ⟨ "NumberOfCompletedSuboperations", FType.uint16, false⟩,
     ⟨ "NumberOfFailedSuboperations", FType.uint16, false⟩,
     ⟨ "NumberOfWarningSuboperations", FType.uint16, false⟩,
     ⟨ "Status", FType.status, true⟩]⟩

/-- C-ECHO request schema (source: `MESSAGES[8]`, P3.7 9.3.5). -/
def cEchoRq : Message :=
  ⟨ "C_ECHO_RQ", Direction.request, 0x30,
    [⟨ "MessageID", FType.uint16, true⟩,
     ⟨ "CommandDataSetType", FType.uint16, true⟩]⟩

/-- C-ECHO response schema (source: `MESSAGES[9]`). -/
def cEchoRsp : Message :=
  ⟨ "C_ECHO_RSP", Direction.response, 0x8030,
    [⟨ "MessageIDBeingRespondedTo", FType.uint16, true⟩,
     ⟨ "CommandDataSetType", FType.uint16, true⟩,
     ⟨ "Status", FType.status, true⟩]⟩

/-- The message schema registry (source: the `MESSAGES` list). -/
def MESSAGES : List Message :=
  [cStoreRq, cStoreRsp, cFindRq, cFindRsp, cGetRq, cGetRsp,
   cMoveRq, cMoveRsp, cEchoRq, cEchoRsp]

/-- A scalar wire value carried by one data element. -/
inductive Value where
  | str (s : String)
  | u16 (n : Nat)
  | u32 (n : Nat)
deriving DecidableEq

/-- One wire data element.  Tags are identified by their semantic field
name (the spec makes tag-to-name a bijection); the command-field tag is
written `"CommandField"`. -/
structure Element where
  tag : String
  value : Value
deriving DecidableEq

/-- An in-memory field value: a scalar, or a composite Status value
(numeric code plus the optional auxiliary error comment, section 4.4). -/
inductive FValue where
  | str (s : String)
  | u16 (n : Nat)
  | u32 (n : Nat)
  | status (code : Nat) (errorComment : String)
deriving DecidableEq

/-- A populated message instance: one value per schema field, in schema
order, plus the `Extra` list of unparsed elements (source: the generated
`type <Kind> struct` with its trailing `Extra []*dicom.Element`). -/
structure Instance where
  vals : List FValue
  extra : List Element
deriving DecidableEq

/-- The zero value of each field type (source: the generated optional-field
guard compares strings against `""` and integers against `0`). -/
def FType.zero : FType → FValue
  | .string => .str ""
  | .uint16 => .u16 0
  | .uint32 => .u32 0
  | .status => .status 0 ""

/-- The scalar wire value of an in-memory value. -/
def FValue.toWire : FValue → Value
  | .str s => .str s
  | .u16 n => .u16 n
  | .u32 n => .u32 n
  | .status c _ => .u16 c

/-- The numeric code of a Status value (0 on non-Status values). -/
def FValue.statusCode : FValue → Nat
  | .status c _ => c
  | _ => 0

/-- The auxiliary error comment of a Status value. -/
def FValue.statusComment : FValue → String
  | .status _ ec => ec
  | _ => ""

/-- Modelled from the spec: the Status codec's encoder (`encodeStatus` in
the generated Go, whose body is not under src/).  Section 4.4: write the
status-code element first under the field's tag, then the auxiliary
elements under their own well-known tags when present. -/
def encodeStatus (code : Nat) (errorComment : String) : List Element :=
  ⟨ "Status", Value.u16 code⟩ ::
    (if errorComment = "" then [] else [⟨ "ErrorComment", Value.str errorComment⟩])

/-- One field's contribution to `Encode`, mirroring the per-field branch
emitted by `generate_go_definition`: an optional field is emitted only when
its value differs from the zero value, a (required) Status field goes
through `encodeStatus`, and a required scalar is emitted unconditionally. -/
def encodeField (f : Field) (v : FValue) : List Element :=
  if f.required = false then
    if v = f.type.zero then [] else [⟨ f.name, v.toWire⟩]
  else if f.type = FType.status then
    encodeStatus v.statusCode v.statusComment
  else
    [⟨ f.name, v.toWire⟩]

/-- The schema fields' wire elements, in schema order. -/
def encFields : List Field → List FValue → List Element
  | f :: fs, v :: vs => encodeField f v ++ encFields fs vs
  | _, _ => []

/-- The generated `Encode` method: the command-field element first, then the
schema fields in order, then every `Extra` element in order, unmodified. -/
def Encode (m : Message) (inst : Instance) : List Element :=
  ⟨ "CommandField", Value.u16 m.command_field⟩ ::
    (encFields m.fields inst.vals ++ inst.extra)

/-- Decode failures (section 7 taxonomy, plus the typed-read failure of the
external element primitive). -/
inductive DimseError where
  | unknownCommand (code : Nat)
  | missingRequiredField (kind : String) (fieldName : String)
  | elementTypeError (kind : String) (fieldName : String)
deriving DecidableEq

/-- Modelled from the spec: the element-pulling primitive of the message
decoder (`messageDecoder.findElement`, not under src/).  Section 4.3 step 3:
pull the first element matching the tag out of the stream, leaving the
remaining elements in their original order. -/
def pullTag (t : String) : List Element → Option (Value × List Element)
  | [] => none
  | e :: es =>
    if e.tag = t then some (e.value, es)
    else
      match pullTag t es with
      | none => none
      | some (v, rest) => some (v, e :: rest)

/-- Coerce a wire value back to a typed field value; fails on a type
mismatch (the typed `get<String,UInt16,UInt32>` reads of the decoder). -/
def wireToF : FType → Value → Option FValue
  | .string, .str s => some (.str s)
  | .uint16, .u16 n => some (.u16 n)
  | .uint32, .u32 n => some (.u32 n)
  | _, _ => none

/-- Modelled from the spec: the Status codec's decoder (`getStatus`, not
under src/).  Section 4.4: read the status-code element (required, under the
field's tag), then attempt the auxiliary error-comment element, whose
absence is not an error. -/
def getStatus (kind : String) (es : List Element) :
    Except DimseError (FValue × List Element) :=
  match pullTag "Status" es with
  | none => .error (.missingRequiredField kind "Status")
  | some (Value.u16 c, es1) =>
    match pullTag "ErrorComment" es1 with
    | some (Value.str ec, es2) => .ok (.status c ec, es2)
    | some (_, _) => .error (.elementTypeError kind "ErrorComment")
    | none => .ok (.status c "", es1)
  | some (_, _) => .error (.elementTypeError kind "Status")

/-- Decode one schema field, mirroring the per-field line emitted into
`decode<Kind>`: Status fields go through `getStatus`; otherwise the field's
tag is pulled from the stream, a missing required element is an error, and a
missing optional element yields the zero value. -/
def decodeField (kind : String) (f : Field) (es : List Element) :
    Except DimseError (FValue × List Element) :=
  if f.type = FType.status then
    getStatus kind es
  else
    match pullTag f.name es with
    | none =>
      if f.required then .error (.missingRequiredField kind f.name)
      else .ok (f.type.zero, es)
    | some (v, es1) =>
      match wireToF f.type v with
      | some fv => .ok (fv, es1)
      | none => .error (.elementTypeError kind f.name)

/-- Decode the schema fields in order, threading the remaining stream. -/
def decodeFields (kind : String) : List Field → List Element →
    Except DimseError (List FValue × List Element)
  | [], es => .ok ([], es)
  | f :: fs, es =>
    match decodeField kind f es with
    | .error e => .error e
    | .ok (v, es1) =>
      match decodeFields kind fs es1 with
      | .error e => .error e
      | .ok (vs, es2) => .ok (v :: vs, es2)

/-- The generated `decode<Kind>` routine: decode every schema field in
order, then collect the unconsumed elements, in original order, as Extra. -/
def decodeMessageForType (m : Message) (es : List Element) :
    Except DimseError Instance :=
  match decodeFields m.name m.fields es with
  | .error e => .error e
  | .ok (vs, rest) => .ok ⟨vs, rest⟩

/-- Registry lookup by command-field code. -/
def findMessage (code : Nat) : Option Message :=
  MESSAGES.find? (fun m => decide (m.command_field = code))

/-- The generated `decodeMessageForType` dispatch switch: a known
command-field code runs that kind's decoder; an unknown one fails with
`UnknownCommand` carrying the offending code. -/
def decodeMessageDispatch (commandField : Nat) (es : List Element) :
    Except DimseError Instance :=
  match findMessage commandField with
  | some m => decodeMessageForType m es
  | none => .error (.unknownCommand commandField)

/-- Modelled from the spec: the full decode pipeline (section 4.3 steps
1-5; the command-field read lives outside src/).  Read the command-field
element, dispatch on its code, and run the kind's field decoder on the rest
of the stream. -/
def Decode (es : List Element) : Except DimseError (Message × Instance) :=
  match pullTag "CommandField" es with
  | some (Value.u16 code, rest) =>
    match findMessage code with
    | some m =>
      match decodeMessageForType m rest with
      | .error e => .error e
      | .ok inst => .ok (m, inst)
    | none => .error (.unknownCommand code)
  | _ => .error (.unknownCommand 0)

/-- The encoder's per-field step as section 4.2 of the spec words it:
Status fields delegate to the Status codec, required fields are emitted
unconditionally, optional fields only when the value differs from the
type's zero value. -/
def encodeFieldSpec (f : Field) (v : FValue) : List Element :=
  if f.type = FType.status then
    encodeStatus v.statusCode v.statusComment
  else if f.required then
    [⟨ f.name, v.toWire⟩]
  else if v = f.type.zero then [] else [⟨ f.name, v.toWire⟩]

/-- The schema fields' wire elements under the spec's wording. -/
def encFieldsSpec : List Field → List FValue → List Element
  | f :: fs, v :: vs => encodeFieldSpec f v ++ encFieldsSpec fs vs
  | _, _ => []

/-- The encoder as the spec words it: command-field element first, schema
fields in order, then Extra in original order, unmodified. -/
def EncodeSpec (m : Message) (inst : Instance) : List Element :=
  ⟨ "CommandField", Value.u16 m.command_field⟩ ::
    (encFieldsSpec m.fields inst.vals ++ inst.extra)

/-- A field value has the shape its declared type demands. -/
def typeOK : FType → FValue → Bool
  | .string, .str _ => true
  | .uint16, .u16 _ => true
  | .uint32, .u32 _ => true
  | .status, .status _ _ => true
  | _, _ => false

/-- A value list validly populates a field list: same length, each value
shaped per its field's type. -/
def typedVals : List Field → List FValue → Bool
  | [], [] => true
  | f :: fs, v :: vs => typeOK f.type v && typedVals fs vs
  | _, _ => false

/-- Well-formedness of one schema field relative to the fields after it:
its name is unique, Status-typed exactly when named `Status`, never one of
the reserved tags, and Status fields are required. -/
def goodField (f : Field) (fs : List Field) : Bool :=
  fs.all (fun g => decide (g.name ≠ f.name)) &&
  decide (f.type = FType.status ↔ f.name = "Status") &&
  decide (f.name ≠ "ErrorComment") &&
  decide (f.name ≠ "CommandField") &&
  decide (f.type = FType.status → f.required = true)

/-- Well-formedness of a schema's field list. -/
def goodSchema : List Field → Bool
  | [] => true
  | f :: fs => goodField f fs && goodSchema fs

/-- Extra elements whose tags collide with nothing the decoder pulls: no
schema field name and not the auxiliary status tag. -/
def extraOK (fs : List Field) (extra : List Element) : Bool :=
  extra.all (fun e =>
    fs.all (fun f => decide (f.name ≠ e.tag)) && decide (e.tag ≠ "ErrorComment"))

theorem goodSchema_cons {f : Field} {fs : List Field}
    (h : goodSchema (f :: fs) = true) :
    (∀ g ∈ fs, g.name ≠ f.name) ∧ (f.type = FType.status ↔ f.name = "Status") ∧
      f.name ≠ "ErrorComment" ∧ f.name ≠ "CommandField" ∧
      (f.type = FType.status → f.required = true) ∧ goodSchema fs = true := by
  simp only [goodSchema, goodField, Bool.and_eq_true, List.all_eq_true,
    decide_eq_true_eq] at h
  exact ⟨h.1.1.1.1.1, h.1.1.1.1.2, h.1.1.1.2, h.1.1.2, h.1.2, h.2⟩

theorem goodSchema_mem {fs : List Field} (h : goodSchema fs = true) :
    ∀ f ∈ fs, (f.type = FType.status ↔ f.name = "Status") ∧
      f.name ≠ "ErrorComment" ∧ f.name ≠ "CommandField" ∧
      (f.type = FType.status → f.required = true) := by
  induction fs with
  | nil => intro f hf; cases hf
  | cons g gs ih =>
    intro f hf
    obtain ⟨-, h2, h3, h4, h5, h6⟩ := goodSchema_cons h
    rcases List.mem_cons.mp hf with rfl | hf
    · exact ⟨h2, h3, h4, h5⟩
    · exact ih h6 f hf

theorem goodSchema_no_status {f : Field} {fs : List Field}
    (h : goodSchema (f :: fs) = true) (hst : f.type = FType.status) :
    ∀ g ∈ fs, g.type ≠ FType.status := by
  obtain ⟨h1, h2, -, -, -, h6⟩ := goodSchema_cons h
  intro g hg hgst
  have hgn := ((goodSchema_mem h6 g hg).1).mp hgst
  exact h1 g hg (hgn.trans (h2.mp hst).symm)

theorem extraOK_mem {fs : List Field} {extra : List Element}
    (h : extraOK fs extra = true) :
    ∀ e ∈ extra, (∀ f ∈ fs, f.name ≠ e.tag) ∧ e.tag ≠ "ErrorComment" := by
  simp only [extraOK, List.all_eq_true, Bool.and_eq_true, decide_eq_true_eq] at h
  exact h

theorem extraOK_tail {f : Field} {fs : List Field} {extra : List Element}
    (h : extraOK (f :: fs) extra = true) : extraOK fs extra = true := by
  simp only [extraOK, List.all_eq_true, Bool.and_eq_true, decide_eq_true_eq] at h ⊢
  intro e he
  exact ⟨fun g hg => (h e he).1 g (List.mem_cons_of_mem f hg), (h e he).2⟩

theorem pullTag_cons_self (t : String) (v : Value) (es : List Element) :
    pullTag t (⟨t, v⟩ :: es) = some (v, es) := by
  simp [pullTag]

theorem pullTag_eq_none {t : String} :
    ∀ {es : List Element}, (∀ e ∈ es, e.tag ≠ t) → pullTag t es = none
  | [], _ => rfl
  | e :: es, h => by
    have he : e.tag ≠ t := h e (List.mem_cons_self e es)
    simp only [pullTag, if_neg he]
    rw [pullTag_eq_none (fun x hx => h x (List.mem_cons_of_mem e hx))]

/-- Every tag emitted by the field encoder is a schema field's name, or one
of the two tags the Status codec writes for some Status-typed field. -/
theorem encFields_tag_cases :
    ∀ (fs : List Field) (vs : List FValue) (e : Element),
      e ∈ encFields fs vs →
      ∃ f ∈ fs, e.tag = f.name ∨
        (f.type = FType.status ∧ (e.tag = "Status" ∨ e.tag = "ErrorComment"))
  | [], _, e, he => by cases he
  | _ :: _, [], e, he => by cases he
  | f :: fs, v :: vs, e, he => by
    rw [encFields, List.mem_append] at he
    rcases he with he | he
    · refine ⟨f, List.mem_cons_self f fs, ?_⟩
      unfold encodeField at he
      by_cases hreq : f.required = false
      · rw [if_pos hreq] at he
        by_cases hz : v = f.type.zero
        · rw [if_pos hz] at he; cases he
        · rw [if_neg hz] at he
          simp only [List.mem_singleton] at he
          exact Or.inl (by rw [he])
      · rw [if_neg hreq] at he
        by_cases hst : f.type = FType.status
        · rw [if_pos hst] at he
          unfold encodeStatus at he
          rcases List.mem_cons.mp he with he | he
          · exact Or.inr ⟨hst, Or.inl (by rw [he])⟩
          · by_cases hec : v.statusComment = ""
            · rw [if_pos hec] at he; cases he
            · rw [if_neg hec] at he
              simp only [List.mem_singleton] at he
              exact Or.inr ⟨hst, Or.inr (by rw [he])⟩
        · rw [if_neg hst] at he
          simp only [List.mem_singleton] at he
          exact Or.inl (by rw [he])
    · obtain ⟨g, hg, hc⟩ := encFields_tag_cases fs vs e he
      exact ⟨g, List.mem_cons_of_mem f hg, hc⟩

/-- No emitted element carries tag `t` when `t` is no remaining field's
name and, if `t` is the auxiliary status tag, no remaining field is
Status-typed. -/
theorem encFields_tag_ne {fs : List Field} {vs : List FValue} {t : String}
    (hg : goodSchema fs = true)
    (hn : ∀ g ∈ fs, g.name ≠ t)
    (hec : t = "ErrorComment" → ∀ g ∈ fs, g.type ≠ FType.status) :
    ∀ e ∈ encFields fs vs, e.tag ≠ t := by
  intro e he
  obtain ⟨f, hf, hc⟩ := encFields_tag_cases fs vs e he
  rcases hc with hc | ⟨hst, hc | hc⟩
  · rw [hc]; exact hn f hf
  · rw [hc]
    have : f.name = "Status" := ((goodSchema_mem hg f hf).1).mp hst
    rw [← this]; exact hn f hf
  · rw [hc]
    intro hEq
    exact hec hEq.symm f hf hst

theorem typeOK_toWire {t : FType} {v : FValue} (h : typeOK t v = true)
    (hst : t ≠ FType.status) : wireToF t v.toWire = some v := by
  cases t <;> cases v <;> first | rfl | (exact absurd rfl hst) | (cases h)

/-- Decoding one field from a stream that starts with that field's own
encoding recovers the value and consumes exactly those elements, provided
the rest of the stream carries none of the tags the field's decoder
pulls. -/
theorem decodeField_encodeField (kind : String) (f : Field) (v : FValue)
    (rest : List Element)
    (hty : typeOK f.type v = true)
    (hok : f.type = FType.status → f.required = true)
    (hname : ∀ e ∈ rest, e.tag ≠ f.name)
    (hec : f.type = FType.status → ∀ e ∈ rest, e.tag ≠ "ErrorComment") :
    decodeField kind f (encodeField f v ++ rest) = Except.ok (v, rest) := by
  by_cases hst : f.type = FType.status
  · have hreq : f.required = true := hok hst
    rcases v with s | n | n | ⟨c, ec⟩
    · rw [hst] at hty; cases hty
    · rw [hst] at hty; cases hty
    · rw [hst] at hty; cases hty
    · have henc : encodeField f (FValue.status c ec) = encodeStatus c ec := by
        simp [encodeField, hreq, hst, FValue.statusCode, FValue.statusComment]
      have hstream : encodeStatus c ec ++ rest =
          ⟨ "Status", Value.u16 c⟩ ::
            ((if ec = "" then [] else [⟨ "ErrorComment", Value.str ec⟩]) ++ rest) := by
        simp [encodeStatus]
      rw [henc, hstream]
      simp only [decodeField, if_pos hst, getStatus, pullTag_cons_self]
      by_cases hz : ec = ""
      · subst hz
        simp [pullTag_eq_none (hec hst)]
      · simp only [if_neg hz, List.singleton_append, pullTag_cons_self]
  · have hwire : wireToF f.type v.toWire = some v := typeOK_toWire hty hst
    by_cases hreq : f.required = false
    · by_cases hz : v = f.type.zero
      · have henc : encodeField f v = [] := by simp [encodeField, hreq, hz]
        rw [henc, List.nil_append]
        simp [decodeField, if_neg hst, pullTag_eq_none hname, hreq, hz]
      · have henc : encodeField f v = [⟨ f.name, v.toWire⟩] := by
          simp [encodeField, hreq, hz]
        rw [henc, List.singleton_append]
        simp only [decodeField, if_neg hst, pullTag_cons_self, hwire]
    · have henc : encodeField f v = [⟨ f.name, v.toWire⟩] := by
        simp [encodeField, hreq, hst]
      rw [henc, List.singleton_append]
      simp only [decodeField, if_neg hst, pullTag_cons_self, hwire]

/-- The round-trip workhorse: decoding the schema fields from their own
encoding followed by non-colliding extra elements recovers every value and
leaves exactly the extra elements unconsumed. -/
theorem decodeFields_encFields (kind : String) :
    ∀ (fs : List Field) (vs : List FValue) (extra : List Element),
      goodSchema fs = true → typedVals fs vs = true → extraOK fs extra = true →
      decodeFields kind fs (encFields fs vs ++ extra) = Except.ok (vs, extra)
  | [], [], extra, _, _, _ => by simp [decodeFields, encFields]
  | [], _ :: _, _, _, hty, _ => by simp [typedVals] at hty
  | _ :: _, [], _, _, hty, _ => by simp [typedVals] at hty
  | f :: fs, v :: vs, extra, hg, hty, hex => by
    obtain ⟨h1, h2, h3, h4, h5, h6⟩ := goodSchema_cons hg
    simp only [typedVals, Bool.and_eq_true] at hty
    obtain ⟨hty1, hty2⟩ := hty
    have hname : ∀ e ∈ encFields fs vs ++ extra, e.tag ≠ f.name := by
      intro e he
      rcases List.mem_append.mp he with he | he
      · exact encFields_tag_ne h6 h1 (fun hEq => absurd hEq h3) e he
      · intro hc
        exact ((extraOK_mem hex e he).1 f (List.mem_cons_self f fs)) hc.symm
    have hecond : f.type = FType.status →
        ∀ e ∈ encFields fs vs ++ extra, e.tag ≠ "ErrorComment" := by
      intro hst e he
      rcases List.mem_append.mp he with he | he
      · exact encFields_tag_ne h6
          (fun g hgm => (goodSchema_mem h6 g hgm).2.1)
          (fun _ => goodSchema_no_status hg hst) e he
      · exact (extraOK_mem hex e he).2
    have hstream : encFields (f :: fs) (v :: vs) ++ extra =
        encodeField f v ++ (encFields fs vs ++ extra) := by
      rw [encFields, List.append_assoc]
    rw [hstream]
    simp only [decodeFields,
      decodeField_encodeField kind f v (encFields fs vs ++ extra) hty1 h5 hname hecond,
      decodeFields_encFields kind fs vs extra h6 hty2 (extraOK_tail hex)]

theorem mem_MESSAGES_elim {m : Message} (hm : m ∈ MESSAGES) :
    m = cStoreRq ∨ m = cStoreRsp ∨ m = cFindRq ∨ m = cFindRsp ∨ m = cGetRq ∨
      m = cGetRsp ∨ m = cMoveRq ∨ m = cMoveRsp ∨ m = cEchoRq ∨ m = cEchoRsp := by
  simpa [MESSAGES] using hm

theorem goodSchema_MESSAGES {m : Message} (hm : m ∈ MESSAGES) :
    goodSchema m.fields = true := by
  rcases mem_MESSAGES_elim hm with rfl|rfl|rfl|rfl|rfl|rfl|rfl|rfl|rfl|rfl <;> decide

theorem findMessage_self {m : Message} (hm : m ∈ MESSAGES) :
    findMessage m.command_field = some m := by
  rcases mem_MESSAGES_elim hm with rfl|rfl|rfl|rfl|rfl|rfl|rfl|rfl|rfl|rfl <;> rfl

/-- C1 (amended): for every registered message kind and every validly
populated instance (all fields shaped per the schema, Extra holding only
elements whose tags are neither schema field tags of the kind nor the
auxiliary status tag), decoding the element sequence produced by encoding
yields the instance back field-for-field, Extra order and contents
included. -/
theorem C1_roundTrip (m : Message) (inst : Instance)
    (hm : m ∈ MESSAGES)
    (hty : typedVals m.fields inst.vals = true)
    (hex : extraOK m.fields inst.extra = true) :
    Decode (Encode m inst) = Except.ok (m, inst) := by
  have hgs := goodSchema_MESSAGES hm
  have hfind := findMessage_self hm
  simp only [Encode, Decode, pullTag_cons_self, hfind, decodeMessageForType,
    decodeFields_encFields m.name m.fields inst.vals inst.extra hgs hty hex]

/-- Witness for C1: a C-ECHO request with MessageID 7, CommandDataSetType
0x0101 and one vendor extra element round-trips. -/
theorem C1_roundTrip_witness :
    cEchoRq ∈ MESSAGES ∧
    typedVals cEchoRq.fields [FValue.u16 7, FValue.u16 0x101] = true ∧
    extraOK cEchoRq.fields [⟨ "VendorTag", Value.u16 9⟩] = true ∧
    Decode (Encode cEchoRq ⟨[FValue.u16 7, FValue.u16 0x101],
        [⟨ "VendorTag", Value.u16 9⟩]⟩) =
      Except.ok (cEchoRq, ⟨[FValue.u16 7, FValue.u16 0x101],
        [⟨ "VendorTag", Value.u16 9⟩]⟩) :=
  ⟨by decide, by decide, by decide,
    C1_roundTrip cEchoRq ⟨[FValue.u16 7, FValue.u16 0x101],
        [⟨ "VendorTag", Value.u16 9⟩]⟩
      (by decide) (by decide) (by decide)⟩

/-- Field values of the C1 counterexample: a C-STORE request whose optional
MoveOriginatorMessageID field holds its zero value. -/
def c1Vals : List FValue :=
  [FValue.str "1.2", FValue.u16 1, FValue.u16 0, FValue.u16 0x101,
   FValue.str "1.2.3", FValue.str "", FValue.u16 0]

/-- The C1 counterexample instance: Extra holds one element whose tag is the
zero-valued optional field's own tag. -/
def c1Inst : Instance := ⟨c1Vals, [⟨ "MoveOriginatorMessageID", Value.u16 5⟩]⟩

/-- What decoding the counterexample's encoding actually yields: the extra
element was pulled into the optional field and Extra came back empty. -/
def c1Bad : Instance :=
  ⟨[FValue.str "1.2", FValue.u16 1, FValue.u16 0, FValue.u16 0x101,
    FValue.str "1.2.3", FValue.str "", FValue.u16 5], []⟩

/-- C1 as stated is false: a validly populated C-STORE request (required
fields set, optional fields at zero, Extra an arbitrary element list)
whose Extra element carries a schema field's tag does not round-trip — the
decoder pulls that element into the zero-valued optional field. -/
theorem C1_counterexample :
    cStoreRq ∈ MESSAGES ∧
    typedVals cStoreRq.fields c1Inst.vals = true ∧
    Decode (Encode cStoreRq c1Inst) = Except.ok (cStoreRq, c1Bad) ∧
    c1Bad ≠ c1Inst :=
  ⟨by decide, by decide, by rfl, by decide⟩

/-- C7: the registry assigns each of the 10 message kinds exactly the
command-field code of the spec's table, the codes are pairwise distinct,
and each code looks up exactly its own kind. -/
theorem C7_registry_codes :
    MESSAGES.map (fun m => (m.name, m.command_field)) =
      [("C_STORE_RQ", 0x0001), ("C_STORE_RSP", 0x8001), ("C_FIND_RQ", 0x0020),
       ("C_FIND_RSP", 0x8020), ("C_GET_RQ", 0x0010), ("C_GET_RSP", 0x8010),
       ("C_MOVE_RQ", 0x0021), ("C_MOVE_RSP", 0x8021), ("C_ECHO_RQ", 0x0030),
       ("C_ECHO_RSP", 0x8030)] ∧
    (MESSAGES.map (fun m => m.command_field)).Nodup ∧
    MESSAGES.all (fun m => decide (findMessage m.command_field = some m)) = true :=
  ⟨rfl, by decide, by decide⟩

/-- C8: encoding a C-ECHO request with MessageID 7 and CommandDataSetType
0x0101 produces exactly the three expected elements in order, and decoding
that sequence yields those two field values with Extra empty. -/
theorem C8_echo_scenario :
    Encode cEchoRq ⟨[FValue.u16 7, FValue.u16 0x101], []⟩ =
      [⟨ "CommandField", Value.u16 0x30⟩, ⟨ "MessageID", Value.u16 7⟩,
       ⟨ "CommandDataSetType", Value.u16 0x101⟩] ∧
    Decode [⟨ "CommandField", Value.u16 0x30⟩, ⟨ "MessageID", Value.u16 7⟩,
        ⟨ "CommandDataSetType", Value.u16 0x101⟩] =
      Except.ok (cEchoRq, ⟨[FValue.u16 7, FValue.u16 0x101], []⟩) :=
  ⟨rfl, rfl⟩

theorem encodeField_eq_spec (f : Field) (v : FValue)
    (h : f.type = FType.status → f.required = true) :
    encodeField f v = encodeFieldSpec f v := by
  by_cases hst : f.type = FType.status
  · have hreq := h hst
    simp [encodeField, encodeFieldSpec, hst, hreq]
  · by_cases hreq : f.required = false
    · simp [encodeField, encodeFieldSpec, hst, hreq]
    · have hreq' : f.required = true := by
        revert hreq; cases f.required <;> simp
      simp [encodeField, encodeFieldSpec, hst, hreq']

theorem encFields_eq_spec :
    ∀ (fs : List Field) (vs : List FValue),
      (∀ f ∈ fs, f.type = FType.status → f.required = true) →
      encFields fs vs = encFieldsSpec fs vs
  | [], vs, _ => by cases vs <;> rfl
  | _ :: _, [], _ => rfl
  | f :: fs, v :: vs, h => by
    rw [encFields, encFieldsSpec,
      encodeField_eq_spec f v (h f (List.mem_cons_self f fs)),
      encFields_eq_spec fs vs (fun g hg => h g (List.mem_cons_of_mem f hg))]

/-- C2: for every registry kind, the source encoder is exactly the encoder
the spec describes — command-field element first with the kind's code, each
FieldSpec in schema order (required fields unconditionally, optional fields
only when non-zero, Status fields via the Status codec), then every Extra
element in original order, unmodified. -/
theorem C2_encode_follows_spec (m : Message) (inst : Instance)
    (hm : m ∈ MESSAGES) :
    Encode m inst = EncodeSpec m inst := by
  have h : ∀ f ∈ m.fields, f.type = FType.status → f.required = true :=
    fun f hf => (goodSchema_mem (goodSchema_MESSAGES hm) f hf).2.2.2
  rw [Encode, EncodeSpec, encFields_eq_spec m.fields inst.vals h]

/-- Witness for C2: the two encoders agree on a concrete C-STORE response. -/
theorem C2_witness :
    Encode cStoreRsp ⟨[FValue.str "1.2", FValue.u16 1, FValue.u16 0x101,
        FValue.str "1.2.3", FValue.status 0 ""], []⟩ =
      EncodeSpec cStoreRsp ⟨[FValue.str "1.2", FValue.u16 1, FValue.u16 0x101,
        FValue.str "1.2.3", FValue.status 0 ""], []⟩ :=
  C2_encode_follows_spec cStoreRsp
    ⟨[FValue.str "1.2", FValue.u16 1, FValue.u16 0x101,
      FValue.str "1.2.3", FValue.status 0 ""], []⟩ (by decide)

/-- C3: decoding a stream whose command-field element carries a code that
matches no registry entry fails with UnknownCommand carrying that code, and
returns no message. -/
theorem C3_unknown_command (es rest : List Element) (code : Nat)
    (h1 : pullTag "CommandField" es = some (Value.u16 code, rest))
    (h2 : ∀ m ∈ MESSAGES, m.command_field ≠ code) :
    Decode es = Except.error (DimseError.unknownCommand code) := by
  have hfind : findMessage code = none := by
    rw [findMessage, List.find?_eq_none]
    intro m hm
    simpa using h2 m hm
  simp only [Decode, h1, hfind]

/-- Witness for C3: code 2 is not a registered command-field code. -/
theorem C3_witness :
    Decode [⟨ "CommandField", Value.u16 2⟩] =
      Except.error (DimseError.unknownCommand 2) :=
  C3_unknown_command [⟨ "CommandField", Value.u16 2⟩] [] 2 rfl (by decide)

/-- C9: in every registry schema, every Status-typed field is required, so
the encoder's delegation to the Status codec (reached only on the required
branch) fires for every Status field that occurs. -/
theorem C9_status_required (m : Message) (f : Field) (v : FValue)
    (hm : m ∈ MESSAGES) (hf : f ∈ m.fields) (hst : f.type = FType.status) :
    f.required = true ∧
      encodeField f v = encodeStatus v.statusCode v.statusComment := by
  have hreq := (goodSchema_mem (goodSchema_MESSAGES hm) f hf).2.2.2 hst
  refine ⟨hreq, ?_⟩
  simp [encodeField, hreq, hst]

/-- Witness for C9: the Status field of the C-STORE response. -/
theorem C9_witness :
    (⟨ "Status", FType.status, true⟩ : Field).required = true ∧
    encodeField ⟨ "Status", FType.status, true⟩ (FValue.status 0xC000 "oops") =
      encodeStatus 0xC000 "oops" :=
  C9_status_required cStoreRsp ⟨ "Status", FType.status, true⟩
    (FValue.status 0xC000 "oops") (by decide) (by decide) rfl

/-- Modelled from the spec: the `CommandDataSetTypeNull` sentinel the
generated `HasData` method compares against; its defining constant lives in
the surrounding package, not under src/ (the DICOM null value 0x0101). -/
def CommandDataSetTypeNull : Nat := 0x101

/-- The value an instance holds for the named schema field. -/
def fieldValue (m : Message) (inst : Instance) (fieldName : String) :
    Option FValue :=
  ((m.fields.zip inst.vals).find? (fun p => decide (p.1.name = fieldName))).map
    (fun p => p.2)

/-- The generated `HasData` method: true exactly when the instance's
CommandDataSetType value differs from the null sentinel. -/
def HasData (m : Message) (inst : Instance) : Bool :=
  match fieldValue m inst "CommandDataSetType" with
  | some (FValue.u16 n) => decide (n ≠ CommandDataSetTypeNull)
  | _ => false

/-- C10: every one of the 10 registry kinds includes a required uint16
CommandDataSetType field, and HasData returns true exactly when that
field's value differs from CommandDataSetTypeNull. -/
theorem C10_hasData (m : Message) (inst : Instance) (n : Nat)
    (hm : m ∈ MESSAGES)
    (hv : fieldValue m inst "CommandDataSetType" = some (FValue.u16 n)) :
    (⟨ "CommandDataSetType", FType.uint16, true⟩ : Field) ∈ m.fields ∧
    (HasData m inst = true ↔ n ≠ CommandDataSetTypeNull) := by
  constructor
  · rcases mem_MESSAGES_elim hm with rfl|rfl|rfl|rfl|rfl|rfl|rfl|rfl|rfl|rfl <;>
      decide
  · simp only [HasData, hv, decide_eq_true_eq]

/-- Witness for C10: a C-ECHO request at the null data-set sentinel has no
data. -/
theorem C10_witness :
    (⟨ "CommandDataSetType", FType.uint16, true⟩ : Field) ∈ cEchoRq.fields ∧
    (HasData cEchoRq ⟨[FValue.u16 7, FValue.u16 0x101], []⟩ = true ↔
      (0x101 : Nat) ≠ CommandDataSetTypeNull) :=
  C10_hasData cEchoRq ⟨[FValue.u16 7, FValue.u16 0x101], []⟩ 0x101
    (by decide) rfl

theorem encodeField_tag_cases (f : Field) (v : FValue) (e : Element)
    (he : e ∈ encodeField f v) :
    e.tag = f.name ∨
      (f.type = FType.status ∧ (e.tag = "Status" ∨ e.tag = "ErrorComment")) := by
  unfold encodeField at he
  by_cases hreq : f.required = false
  · rw [if_pos hreq] at he
    by_cases hz : v = f.type.zero
    · rw [if_pos hz] at he; cases he
    · rw [if_neg hz] at he
      simp only [List.mem_singleton] at he
      exact Or.inl (by rw [he])
  · rw [if_neg hreq] at he
    by_cases hst : f.type = FType.status
    · rw [if_pos hst] at he
      unfold encodeStatus at he
      rcases List.mem_cons.mp he with he | he
      · exact Or.inr ⟨hst, Or.inl (by rw [he])⟩
      · by_cases hec : v.statusComment = ""
        · rw [if_pos hec] at he; cases he
        · rw [if_neg hec] at he
          simp only [List.mem_singleton] at he
          exact Or.inr ⟨hst, Or.inr (by rw [he])⟩
    · rw [if_neg hst] at he
      simp only [List.mem_singleton] at he
      exact Or.inl (by rw [he])

/-- Whatever the head field of a well-formed schema emits, its tag differs
from every later field's name. -/
theorem encodeField_tag_ne_later (f : Field) (fs : List Field) (v : FValue)
    (hg : goodSchema (f :: fs) = true) (g : Field) (hgm : g ∈ fs) :
    ∀ e ∈ encodeField f v, e.tag ≠ g.name := by
  obtain ⟨h1, h2, -, -, -, h6⟩ := goodSchema_cons hg
  intro e he
  rcases encodeField_tag_cases f v e he with hc | ⟨hst, hc | hc⟩
  · rw [hc]; exact fun hEq => h1 g hgm hEq.symm
  · rw [hc]
    have hfn : f.name = "Status" := h2.mp hst
    exact fun hEq => h1 g hgm (hEq.symm.trans hfn.symm)
  · rw [hc]
    exact fun hEq => (goodSchema_mem h6 g hgm).2.1 hEq.symm

/-- The tail of an encoded stream (emissions of the remaining fields, plus
the extra elements) carries neither the head field's tag nor, when the head
field is Status-typed, the auxiliary status tag. -/
theorem rest_tag_ne_head {f : Field} {fs : List Field} {vs : List FValue}
    {sub extra : List Element}
    (hg : goodSchema (f :: fs) = true)
    (hex : extraOK (f :: fs) extra = true)
    (hsub : ∀ e ∈ sub, e ∈ encFields fs vs) :
    (∀ e ∈ sub ++ extra, e.tag ≠ f.name) ∧
      (f.type = FType.status → ∀ e ∈ sub ++ extra, e.tag ≠ "ErrorComment") := by
  obtain ⟨h1, -, h3, -, -, h6⟩ := goodSchema_cons hg
  constructor
  · intro e he
    rcases List.mem_append.mp he with he | he
    · exact encFields_tag_ne h6 h1 (fun hEq => absurd hEq h3) e (hsub e he)
    · exact fun hc =>
        ((extraOK_mem hex e he).1 f (List.mem_cons_self f fs)) hc.symm
  · intro hst e he
    rcases List.mem_append.mp he with he | he
    · exact encFields_tag_ne h6 (fun g hgm => (goodSchema_mem h6 g hgm).2.1)
        (fun _ => goodSchema_no_status hg hst) e (hsub e he)
    · exact (extraOK_mem hex e he).2

/-- An optional field held at its zero value leaves no element with its tag
anywhere in the encoded schema fields. -/
theorem encFields_zero_tag_ne :
    ∀ (fs : List Field) (vs : List FValue) (i : Nat) (hi : i < fs.length),
      goodSchema fs = true →
      (fs.get ⟨i, hi⟩).required = false →
      vs.get? i = some ((fs.get ⟨i, hi⟩).type.zero) →
      ∀ e ∈ encFields fs vs, e.tag ≠ (fs.get ⟨i, hi⟩).name
  | [], _, _, hi, _, _, _ => absurd hi (by simp)
  | _ :: _, [], _, _, _, _, hz => by simp at hz
  | f :: fs, v :: vs, 0, _, hg, hopt, hz => by
    obtain ⟨h1, -, h3, -, -, h6⟩ := goodSchema_cons hg
    have hopt' : f.required = false := hopt
    have hv : v = f.type.zero := by simpa using hz
    intro e he
    rw [encFields] at he
    rcases List.mem_append.mp he with he | he
    · have henc : encodeField f v = [] := by simp [encodeField, hopt', hv]
      rw [henc] at he; cases he
    · exact encFields_tag_ne h6 h1 (fun hEq => absurd hEq h3) e he
  | f :: fs, v :: vs, Nat.succ j, hi, hg, hopt, hz => by
    have hj : j < fs.length := Nat.lt_of_succ_lt_succ hi
    intro e he
    rw [encFields] at he
    rcases List.mem_append.mp he with he | he
    · exact encodeField_tag_ne_later f fs v hg (fs.get ⟨j, hj⟩)
        (fs.get_mem j hj) e he
    · exact encFields_zero_tag_ne fs vs j hj (goodSchema_cons hg).2.2.2.2.2
        hopt hz e he

/-- C5: encoding an instance whose optional field holds the type's zero
value produces no wire element for that field, and decoding the resulting
stream — which therefore lacks that element — succeeds with the field at
its zero value (the decoded instance equals the encoded one). -/
theorem C5_optional_zero (m : Message) (inst : Instance) (i : Nat)
    (hi : i < m.fields.length)
    (hm : m ∈ MESSAGES)
    (hopt : (m.fields.get ⟨i, hi⟩).required = false)
    (hz : inst.vals.get? i = some ((m.fields.get ⟨i, hi⟩).type.zero))
    (hty : typedVals m.fields inst.vals = true)
    (hex : extraOK m.fields inst.extra = true) :
    (Encode m inst).all
        (fun e => decide (e.tag ≠ (m.fields.get ⟨i, hi⟩).name)) = true ∧
    Decode (Encode m inst) = Except.ok (m, inst) := by
  have hgs := goodSchema_MESSAGES hm
  constructor
  · simp only [List.all_eq_true, decide_eq_true_eq]
    intro e he
    rcases List.mem_cons.mp he with rfl | he
    · exact fun hc =>
        (goodSchema_mem hgs _ (m.fields.get_mem i hi)).2.2.1 hc.symm
    · rcases List.mem_append.mp he with he | he
      · exact encFields_zero_tag_ne m.fields inst.vals i hi hgs hopt hz e he
      · exact fun hc =>
          ((extraOK_mem hex e he).1 _ (m.fields.get_mem i hi)) hc.symm
  · have hfind := findMessage_self hm
    simp only [Encode, Decode, pullTag_cons_self, hfind, decodeMessageForType,
      decodeFields_encFields m.name m.fields inst.vals inst.extra hgs hty hex]

/-- Witness for C5: a C-STORE request with MoveOriginatorMessageID at zero
emits no element under that tag and round-trips. -/
theorem C5_witness :
    (Encode cStoreRq ⟨[FValue.str "1.2", FValue.u16 3, FValue.u16 0,
        FValue.u16 0x101, FValue.str "1.2.3", FValue.str "", FValue.u16 0],
        []⟩).all
        (fun e => decide (e.tag ≠ "MoveOriginatorMessageID")) = true ∧
    Decode (Encode cStoreRq ⟨[FValue.str "1.2", FValue.u16 3, FValue.u16 0,
        FValue.u16 0x101, FValue.str "1.2.3", FValue.str "", FValue.u16 0],
        []⟩) =
      Except.ok (cStoreRq, ⟨[FValue.str "1.2", FValue.u16 3, FValue.u16 0,
        FValue.u16 0x101, FValue.str "1.2.3", FValue.str "", FValue.u16 0],
        []⟩) :=
  C5_optional_zero cStoreRq
    ⟨[FValue.str "1.2", FValue.u16 3, FValue.u16 0, FValue.u16 0x101,
      FValue.str "1.2.3", FValue.str "", FValue.u16 0], []⟩ 6
    (by decide) (by decide) (by decide) (by decide) (by decide) (by decide)

/-- C6: an element stream for a known kind that additionally carries one
element whose tag matches no schema field decodes successfully, that
element appears in the resulting Extra, and re-encoding the decoded
instance reproduces the element verbatim in the output stream. -/
theorem C6_forward_compat (m : Message) (vals : List FValue) (x : Element)
    (hm : m ∈ MESSAGES)
    (hty : typedVals m.fields vals = true)
    (hx : extraOK m.fields [x] = true) :
    decodeMessageForType m (encFields m.fields vals ++ [x]) =
      Except.ok ⟨vals, [x]⟩ ∧
    Encode m ⟨vals, [x]⟩ =
      ⟨ "CommandField", Value.u16 m.command_field⟩ ::
        (encFields m.fields vals ++ [x]) := by
  refine ⟨?_, rfl⟩
  simp only [decodeMessageForType,
    decodeFields_encFields m.name m.fields vals [x]
      (goodSchema_MESSAGES hm) hty hx]

/-- Witness for C6: a C-ECHO request stream with an unknown PatientName
element. -/
theorem C6_witness :
    decodeMessageForType cEchoRq
        (encFields cEchoRq.fields [FValue.u16 7, FValue.u16 0x101] ++
          [⟨ "PatientName", Value.str "DOE"⟩]) =
      Except.ok ⟨[FValue.u16 7, FValue.u16 0x101],
        [⟨ "PatientName", Value.str "DOE"⟩]⟩ ∧
    Encode cEchoRq ⟨[FValue.u16 7, FValue.u16 0x101],
        [⟨ "PatientName", Value.str "DOE"⟩]⟩ =
      ⟨ "CommandField", Value.u16 cEchoRq.command_field⟩ ::
        (encFields cEchoRq.fields [FValue.u16 7, FValue.u16 0x101] ++
          [⟨ "PatientName", Value.str "DOE"⟩]) :=
  C6_forward_compat cEchoRq [FValue.u16 7, FValue.u16 0x101]
    ⟨ "PatientName", Value.str "DOE"⟩ (by decide) (by decide) (by decide)

theorem eraseP_append_skip {α : Type} {p : α → Bool} :
    ∀ {l₁ : List α} (l₂ : List α), (∀ b ∈ l₁, p b = false) →
      List.eraseP p (l₁ ++ l₂) = l₁ ++ List.eraseP p l₂
  | [], _, _ => rfl
  | a :: l₁, l₂, h => by
    rw [List.cons_append, List.eraseP_cons, h a (List.mem_cons_self a l₁),
      Bool.cond_false, List.cons_append,
      eraseP_append_skip l₂ (fun b hb => h b (List.mem_cons_of_mem a hb))]

theorem eraseP_append_pull {α : Type} {p : α → Bool} :
    ∀ {l₁ : List α} (l₂ : List α), (∃ a ∈ l₁, p a = true) →
      List.eraseP p (l₁ ++ l₂) = List.eraseP p l₁ ++ l₂
  | [], _, h => by simp at h
  | a :: l₁, l₂, h => by
    rw [List.cons_append, List.eraseP_cons, List.eraseP_cons]
    by_cases hpa : p a = true
    · rw [hpa, Bool.cond_true, Bool.cond_true]
    · have hpa' : p a = false := by revert hpa; cases p a <;> simp
      obtain ⟨b, hb, hpb⟩ := h
      rcases List.mem_cons.mp hb with rfl | hb
      · exact absurd hpb hpa
      · rw [hpa', Bool.cond_false, Bool.cond_false, List.cons_append,
          eraseP_append_pull l₂ ⟨b, hb, hpb⟩]

/-- A required field always contributes an element carrying its own tag to
the encoded schema fields. -/
theorem encFields_req_tag_mem :
    ∀ (fs : List Field) (vs : List FValue) (i : Nat) (f0 : Field),
      fs.get? i = some f0 →
      goodSchema fs = true → typedVals fs vs = true →
      f0.required = true →
      ∃ e ∈ encFields fs vs, e.tag = f0.name
  | [], _, i, _, hf, _, _, _ => by simp at hf
  | _ :: _, [], _, _, _, _, hty, _ => by simp [typedVals] at hty
  | f :: fs, v :: vs, 0, f0, hf, hg, _, hreq => by
    obtain rfl : f = f0 := Option.some.inj hf
    by_cases hst : f.type = FType.status
    · have hfn : f.name = "Status" := ((goodSchema_cons hg).2.1).mp hst
      refine ⟨⟨ "Status", Value.u16 v.statusCode⟩, ?_, hfn.symm⟩
      rw [encFields]
      apply List.mem_append_left
      have henc : encodeField f v = encodeStatus v.statusCode v.statusComment := by
        simp [encodeField, hreq, hst]
      rw [henc, encodeStatus]
      exact List.mem_cons_self _ _
    · refine ⟨⟨ f.name, v.toWire⟩, ?_, rfl⟩
      rw [encFields]
      apply List.mem_append_left
      have henc : encodeField f v = [⟨ f.name, v.toWire⟩] := by
        simp [encodeField, hreq, hst]
      rw [henc]
      exact List.mem_cons_self _ _
  | f :: fs, v :: vs, Nat.succ j, f0, hf, hg, hty, hreq => by
    simp only [typedVals, Bool.and_eq_true] at hty
    obtain ⟨e, he, htag⟩ := encFields_req_tag_mem fs vs j f0 hf
      (goodSchema_cons hg).2.2.2.2.2 hty.2 hreq
    refine ⟨e, ?_, htag⟩
    rw [encFields]
    exact List.mem_append_right _ he

/-- Removing the `i`-th (required) field's element from the encoded schema
fields makes the decoder fail with MissingRequiredField naming that
field. -/
theorem decodeFields_erase (kind : String) :
    ∀ (fs : List Field) (vs : List FValue) (extra : List Element)
      (i : Nat) (f0 : Field),
      fs.get? i = some f0 →
      goodSchema fs = true → typedVals fs vs = true → extraOK fs extra = true →
      f0.required = true →
      decodeFields kind fs
        (List.eraseP (fun e => decide (e.tag = f0.name)) (encFields fs vs) ++
          extra) =
        Except.error (DimseError.missingRequiredField kind f0.name)
  | [], _, _, i, _, hf, _, _, _, _ => by simp at hf
  | _ :: _, [], _, _, _, _, _, hty, _, _ => by simp [typedVals] at hty
  | f :: fs, v :: vs, extra, 0, f0, hf, hg, hty, hex, hreq => by
    obtain rfl : f = f0 := Option.some.inj hf
    obtain ⟨h1, h2, h3, -, -, h6⟩ := goodSchema_cons hg
    simp only [typedVals, Bool.and_eq_true] at hty
    obtain ⟨hty1, hty2⟩ := hty
    by_cases hst : f.type = FType.status
    · rcases v with s | n | n | ⟨c, ec⟩

      · rw [hst] at hty1; cases hty1
      · rw [hst] at hty1; cases hty1
      · rw [hst] at hty1; cases hty1
      · have hfn : f.name = "Status" := h2.mp hst
        have henc : encodeField f (FValue.status c ec) = encodeStatus c ec := by
          simp [encodeField, hreq, hst, FValue.statusCode, FValue.statusComment]
        rw [encFields, henc, encodeStatus, List.cons_append, List.eraseP_cons]
        have hPhead :
            decide ((⟨ "Status", Value.u16 c⟩ : Element).tag = f.name) = true := by
          rw [hfn]; exact decide_eq_true rfl
        rw [hPhead, Bool.cond_true, List.append_assoc]
        have hnone : pullTag "Status"
            ((if ec = "" then [] else [⟨ "ErrorComment", Value.str ec⟩]) ++
              (encFields fs vs ++ extra)) = none := by
          apply pullTag_eq_none
          intro e he
          rcases List.mem_append.mp he with he | he
          · by_cases hz : ec = ""
            · rw [if_pos hz] at he; cases he
            · rw [if_neg hz] at he
              simp only [List.mem_singleton] at he
              rw [he]
              exact (by decide : ("ErrorComment" : String) ≠ "Status")
          · rcases List.mem_append.mp he with he | he
            · exact encFields_tag_ne h6
                (fun g hgm hc => h1 g hgm (hc.trans hfn.symm))
                (fun hEq => absurd hEq (by decide)) e he
            · intro hc
              exact ((extraOK_mem hex e he).1 f (List.mem_cons_self f fs))
                (hfn.trans hc.symm)
        simp only [decodeFields, decodeField, if_pos hst, getStatus, hnone]
        rw [hfn]
    · have henc : encodeField f v = [⟨ f.name, v.toWire⟩] := by
        simp [encodeField, hreq, hst]
      rw [encFields, henc, List.singleton_append, List.eraseP_cons]
      have hPhead :
          decide ((⟨ f.name, v.toWire⟩ : Element).tag = f.name) = true :=
        decide_eq_true rfl
      rw [hPhead, Bool.cond_true]
      have hnone := pullTag_eq_none
        ((@rest_tag_ne_head f fs vs (encFields fs vs) extra hg hex
          (fun _ he => he)).1)
      simp [decodeFields, decodeField, if_neg hst, hnone, hreq]
  | f :: fs, v :: vs, extra, Nat.succ j, f0, hf, hg, hty, hex, hreq => by
    obtain ⟨h1, h2, h3, -, h5, h6⟩ := goodSchema_cons hg
    simp only [typedVals, Bool.and_eq_true] at hty
    obtain ⟨hty1, hty2⟩ := hty
    have hmem : f0 ∈ fs := List.get?_mem hf
    have hskip : ∀ b ∈ encodeField f v,
        (fun e => decide (e.tag = f0.name)) b = false := fun b hb =>
      decide_eq_false (encodeField_tag_ne_later f fs v hg f0 hmem b hb)
    rw [encFields, eraseP_append_skip (encFields fs vs) hskip, List.append_assoc]
    have hrest := @rest_tag_ne_head f fs vs
      (List.eraseP (fun e => decide (e.tag = f0.name)) (encFields fs vs))
      extra hg hex (fun e he => List.mem_of_mem_eraseP he)
    simp only [decodeFields,
      decodeField_encodeField kind f v
        (List.eraseP (fun e => decide (e.tag = f0.name)) (encFields fs vs) ++
          extra) hty1 h5 hrest.1 hrest.2,
      decodeFields_erase kind fs vs extra j f0 hf h6 hty2 (extraOK_tail hex)
        hreq]

/-- C4: for every registry kind and every required field of that kind,
removing that field's element from the encoded stream of a validly
populated instance makes Decode fail with MissingRequiredField naming the
kind and that field. -/
theorem C4_missing_required (m : Message) (inst : Instance) (i : Nat)
    (f0 : Field)
    (hm : m ∈ MESSAGES)
    (hf : m.fields.get? i = some f0)
    (hreq : f0.required = true)
    (hty : typedVals m.fields inst.vals = true)
    (hex : extraOK m.fields inst.extra = true) :
    Decode (List.eraseP (fun e => decide (e.tag = f0.name)) (Encode m inst)) =
      Except.error (DimseError.missingRequiredField m.name f0.name) := by
  have hgs := goodSchema_MESSAGES hm
  have hmem : f0 ∈ m.fields := List.get?_mem hf
  have hPcf : decide
      ((⟨ "CommandField", Value.u16 m.command_field⟩ : Element).tag =
        f0.name) = false :=
    decide_eq_false (fun hc => (goodSchema_mem hgs f0 hmem).2.2.1 hc.symm)
  obtain ⟨a, ha, hpa⟩ :=
    encFields_req_tag_mem m.fields inst.vals i f0 hf hgs hty hreq
  rw [Encode, List.eraseP_cons, hPcf, Bool.cond_false,
    eraseP_append_pull inst.extra ⟨a, ha, decide_eq_true hpa⟩]
  simp only [Decode, pullTag_cons_self, findMessage_self hm,
    decodeMessageForType,
    decodeFields_erase m.name m.fields inst.vals inst.extra i f0 hf hgs hty
      hex hreq]

/-- Witness for C4: removing MessageID from an encoded C-ECHO request. -/
theorem C4_witness :
    Decode (List.eraseP (fun e => decide (e.tag = "MessageID"))
        (Encode cEchoRq ⟨[FValue.u16 7, FValue.u16 0x101], []⟩)) =
      Except.error (DimseError.missingRequiredField "C_ECHO_RQ" "MessageID") :=
  C4_missing_required cEchoRq ⟨[FValue.u16 7, FValue.u16 0x101], []⟩ 0
    ⟨ "MessageID", FType.uint16, true⟩ (by decide) rfl rfl (by decide)
    (by decide)

end Dimse
